import Mathlib

/-!
Verification of the L88-Full backend (`l88_backend`) against its
natural-language specification.

The Python sources are shallowly embedded: pure functions become Lean
functions, module-level mutable state (the query cache, the SQL table of
documents) becomes explicit state passing, Python floats become rationals,
wall-clock time becomes an explicit `Nat` parameter, and calls to external
collaborators (the LLM, the embedder, the cross-encoder, FAISS / BM25
search) become oracle function parameters.  Fallible code returns
`Except`.
-/

namespace L88

/-! ## Python string primitives

Built-in string methods used by the sources, modelled over the character
list (the inputs at issue are ASCII, where `Char.toLower`/`Char.toUpper`
agree with Python). -/

/-- Python `str.lower()`. -/
def pyLower (s : String) : String := ⟨s.data.map Char.toLower⟩

/-- Python `str.upper()`. -/
def pyUpper (s : String) : String := ⟨s.data.map Char.toUpper⟩

/-- Whitespace as stripped by Python `str.strip()`. -/
def isSpaceChar (c : Char) : Bool :=
  c == ' ' || c == '\t' || c == '\n' || c == '\r' || c == '\x0b' || c == '\x0c'

/-- Python `str.strip()`. -/
def pyStrip (s : String) : String :=
  ⟨((s.data.dropWhile isSpaceChar).reverse.dropWhile isSpaceChar).reverse⟩

/-- Leading-match test for `containsSeq` below. -/
def leadsWith : List Char → List Char → Bool
  | [], _ => true
  | _ :: _, [] => false
  | c :: cs, d :: ds => c == d && leadsWith cs ds

/-- Python `needle in hay` on strings: contiguous-substring test. -/
def containsSeq (needle : List Char) : List Char → Bool
  | [] => leadsWith needle []
  | d :: ds => leadsWith needle (d :: ds) || containsSeq needle ds

/-- Python `sub in s` for strings. -/
def strContains (s sub : String) : Bool := containsSeq sub.data s.data

/-! ## Query cache (`l88_backend/cache.py`)

The module-level dict `_cache` is modelled as an association list with
unique keys (`dictSetC` replaces in place exactly like Python dict
assignment).  `time.time()` is an explicit `now : Nat` argument. -/

/-- `TTL_SECONDS = 60 * 60` from `cache.py`. -/
def TTL_SECONDS : Nat := 60 * 60

/-- An entry of `_cache`.  `cache_set` stores the dict
`{"result": result, "ts": time.time()}`; the `session_id` field models
`entry.get("session_id")`, which is `none` on every entry `cache_set`
creates (the stored dict has no such key). -/
structure CacheEntry (α : Type) where
  result : α
  ts : Nat
  session_id : Option String := none
deriving Repr, DecidableEq

/-- The `_cache` dict: association list keyed by the cache key. -/
abbrev Cache (α : Type) := List (String × CacheEntry α)

/-- Python dict assignment `m[k] = v`: replace in place, else append. -/
def dictSetC {α : Type} (m : Cache α) (k : String) (v : CacheEntry α) : Cache α :=
  match m with
  | [] => [(k, v)]
  | (k0, v0) :: rest => if k0 = k then (k, v) :: rest else (k0, v0) :: dictSetC rest k v

/-- Python `m.get(k)`. -/
def dictGetC {α : Type} (m : Cache α) (k : String) : Option (CacheEntry α) :=
  match m with
  | [] => none
  | (k0, v0) :: rest => if k0 = k then some v0 else dictGetC rest k

/-- Python `del m[k]`. -/
def dictDelC {α : Type} (m : Cache α) (k : String) : Cache α :=
  m.filter (fun kv => kv.1 != k)

/-- The `_make_key` helper.  The source returns the SHA-256 hex digest of
`session_id + ":" + query.strip().lower()`; the digest is used only as an
opaque dict key compared for equality, so it is modelled by its preimage
string, which is injective in the two arguments. -/
def _make_key (session_id query : String) : String :=
  session_id ++ ":" ++ pyLower (pyStrip query)

/-- `cache_get` from `cache.py`.  Returns the cached result (if present
and unexpired) together with the possibly mutated cache (an expired entry
is deleted on access). -/
def cache_get {α : Type} (session_id query : String) (now : Nat) (c : Cache α) :
    Option α × Cache α :=
  let key := _make_key session_id query
  match dictGetC c key with
  | none => (none, c)
  | some entry =>
    if now - entry.ts > TTL_SECONDS then (none, dictDelC c key)
    else (some entry.result, c)

/-- `cache_set` from `cache.py`: stores `{"result": result, "ts": now}`
under the key — and, notably, no `"session_id"` key. -/
def cache_set {α : Type} (session_id query : String) (result : α) (now : Nat)
    (c : Cache α) : Cache α :=
  dictSetC c (_make_key session_id query) { result := result, ts := now }

/-- `cache_invalidate_session` from `cache.py`: deletes exactly those
entries whose stored dict has `entry.get("session_id") == session_id`.
(The `prefix` local computed by the source is unused and is omitted.) -/
def cache_invalidate_session {α : Type} (session_id : String) (c : Cache α) : Cache α :=
  c.filter (fun kv => kv.2.session_id != some session_id)

/-- C1: the claim that `cache_invalidate_session(s)` removes every entry
stored by `cache_set(s, q, r)`, so that `cache_get(s, q)` afterwards
returns `None`, is FALSE on the code: `cache_set` stores no
`"session_id"` key, so the filter in `cache_invalidate_session` matches
nothing; after storing and invalidating, `cache_get` still returns the
cached result (here evaluated at a concrete fresh entry), and the
invalidation is the identity on the cache. -/
theorem C1_invalidate_removes_nothing :
    (cache_get "s1" "What is A?" 100
      (cache_invalidate_session "s1"
        (cache_set "s1" "What is A?" "answer A1" 100 ([] : Cache String)))).1
      = some "answer A1" ∧
    cache_invalidate_session "s1"
      (cache_set "s1" "What is A?" "answer A1" 100 ([] : Cache String))
      = cache_set "s1" "What is A?" "answer A1" 100 ([] : Cache String) := by
  constructor <;> rfl

/-! ## Documents and the selection toggle
(`l88_backend/models/document.py`, `l88_backend/services/document_service.py`)

The SQL table of `Document` rows is modelled as a list; `db.get` on the
primary key is `find?`, and committing the mutated row replaces it in
place.  The on-disk index artifacts are an opaque path-to-content map the
toggle never touches. -/

/-- A `Document` row (`models/document.py`).  `uploaded_at` is omitted:
no code under consideration reads it. -/
structure Document where
  id : String
  session_id : Option String
  filename : String
  source : String
  uploaded_by : Int
  page_count : Nat
  chunk_count : Nat
  selected : Bool
deriving Repr, DecidableEq

/-- The mutable state `toggle_document_selection` can reach: the document
table, the process-wide query cache, and the on-disk index files. -/
structure World where
  documents : List Document
  cache : Cache String
  index_files : List (String × String)
deriving Repr, DecidableEq

/-- SQLModel `db.get(Document, doc_id)`: primary-key lookup. -/
def dbGetDocument (docs : List Document) (doc_id : String) : Option Document :=
  docs.find? (fun d => d.id == doc_id)

/-- Committing an updated row: replace the row with the same primary key. -/
def dbUpdateDocument : List Document → Document → List Document
  | [], _ => []
  | d :: ds, doc => if d.id == doc.id then doc :: ds else d :: dbUpdateDocument ds doc

/-- `toggle_document_selection` from `services/document_service.py`:
404 unless the row exists and belongs to the session; otherwise set its
`selected` flag and commit.  No cache or index-file operation appears in
the source. -/
def toggle_document_selection (session_id doc_id : String) (selected : Bool)
    (w : World) : Except String (Document × World) :=
  match dbGetDocument w.documents doc_id with
  | none => .error "404 Document not found"
  | some doc =>
    if doc.session_id ≠ some session_id then .error "404 Document not found"
    else
      let doc2 := { doc with selected := selected }
      .ok (doc2, { w with documents := dbUpdateDocument w.documents doc2 })

theorem dictGetC_dictSetC {α : Type} (c : Cache α) (k : String) (v : CacheEntry α) :
    dictGetC (dictSetC c k v) k = some v := by
  induction c with
  | nil => simp [dictSetC, dictGetC]
  | cons kv rest ih =>
    obtain ⟨k0, v0⟩ := kv
    by_cases h : k0 = k
    · simp [dictSetC, dictGetC, h]
    · simp [dictSetC, dictGetC, h, ih]

theorem cache_get_cache_set {α : Type} (session_id query : String) (r : α)
    (t now : Nat) (c : Cache α) (hfresh : now - t ≤ TTL_SECONDS) :
    (cache_get session_id query now (cache_set session_id query r t c)).1 = some r := by
  have hgt : ¬ now - t > TTL_SECONDS := by omega
  simp [cache_get, cache_set, dictGetC_dictSetC, hgt]

theorem dbUpdateDocument_mem_of_ne (docs : List Document) (doc : Document)
    (d : Document) (hd : d ∈ docs) (hne : d.id ≠ doc.id) :
    d ∈ dbUpdateDocument docs doc := by
  induction docs with
  | nil => simp at hd
  | cons d0 ds ih =>
    rcases List.mem_cons.mp hd with h | h
    · subst h
      have : (d.id == doc.id) = false := by
        simpa [beq_iff_eq] using hne
      simp [dbUpdateDocument, this]
    · by_cases h0 : (d0.id == doc.id) = true
      · simp [dbUpdateDocument, h0, List.mem_cons, h]
      · simp only [dbUpdateDocument]
        rw [if_neg (by simpa using h0)]
        exact List.mem_cons.mpr (Or.inr (ih h))

/-- C10: `toggle_document_selection` is a pure frame update on the
document table: on success it leaves the query cache and every index file
untouched (so a response cached before the toggle is still returned by
`cache_get` afterwards, here instantiated on the very response just
cached), the returned row is the located row with only the `selected`
flag replaced, and every other row of the table survives. -/
theorem C10_toggle_touches_only_selected (docs : List Document)
    (cache : Cache String) (idx : List (String × String))
    (sid did sid2 q r : String) (sel : Bool) (t now : Nat)
    (d2 : Document) (w2 : World)
    (hfresh : now - t ≤ TTL_SECONDS)
    (h : toggle_document_selection sid did sel
        ⟨docs, cache_set sid2 q r t cache, idx⟩ = .ok (d2, w2)) :
    w2.cache = cache_set sid2 q r t cache ∧
    w2.index_files = idx ∧
    (cache_get sid2 q now w2.cache).1 = some r ∧
    d2.selected = sel ∧
    (∃ d0, d0 ∈ docs ∧ d0.id = did ∧ d0.session_id = some sid ∧
      d2 = { d0 with selected := sel }) ∧
    (∀ d0, d0 ∈ docs → d0.id ≠ did → d0 ∈ w2.documents) := by
  unfold toggle_document_selection at h
  cases hfind : dbGetDocument docs did with
  | none => rw [hfind] at h; exact absurd h (by simp)
  | some doc =>
    rw [hfind] at h
    by_cases hses : doc.session_id = some sid
    · simp only [hses, ne_eq, not_true_eq_false, if_false, Except.ok.injEq,
        Prod.mk.injEq] at h
      obtain ⟨hd2, hw2⟩ := h
      have hfind2 : docs.find? (fun d => d.id == did) = some doc := hfind
      have hmem : doc ∈ docs := List.mem_of_find?_eq_some hfind2
      have hid := List.find?_some hfind2
      have hid2 : doc.id = did := by simpa [beq_iff_eq] using hid
      subst hw2
      refine ⟨rfl, rfl, ?_, ?_, ?_, ?_⟩
      · exact cache_get_cache_set sid2 q r t now cache hfresh
      · rw [← hd2]
      · refine ⟨doc, hmem, hid2, hses, ?_⟩
        rw [← hd2, hses]
      · intro d0 hd0 hne
        have hne2 : d0.id ≠ ({ doc with selected := sel } : Document).id := by
          simpa using hid2 ▸ hne
        exact dbUpdateDocument_mem_of_ne docs _ d0 hd0 hne2
    · simp [hses] at h

/-- Witness for C10 at a concrete world: one selected document, a cached
response, one index file; the toggle flips the flag and the cached
response is still served. -/
theorem C10_toggle_touches_only_selected_witness :
    ∃ d2 w2, toggle_document_selection "s1" "d1" false
        ⟨[⟨"d1", some "s1", "a.pdf", "session", 1, 3, 2, true⟩],
          cache_set "s1" "What is A?" "answer A1" 50 [], [("p", "bytes")]⟩
        = .ok (d2, w2) ∧
      w2.cache = cache_set "s1" "What is A?" "answer A1" 50 [] ∧
      (cache_get "s1" "What is A?" 60 w2.cache).1 = some "answer A1" := by
  refine ⟨_, _, rfl, ?_⟩
  have h := C10_toggle_touches_only_selected
    [⟨"d1", some "s1", "a.pdf", "session", 1, 3, 2, true⟩] [] [("p", "bytes")]
    "s1" "d1" "s1" "What is A?" "answer A1" false 50 60 _ _ (by decide) rfl
  exact ⟨h.1, h.2.2.1⟩

/-! ## Chunks and configuration
(`l88_backend/config.py`, chunk dicts as produced by ingestion/search)

Chunk dicts are modelled as a record; the `.get(key, default)` accesses
of the sources are folded into field defaults.  Python float scores are
modelled as rationals. -/

/-- Retrieval constants from `config.py`. -/
def RETRIEVE_TOP_K : Nat := 20

/-- `RERANK_TOP_N = 5` from `config.py`. -/
def RERANK_TOP_N : Nat := 5

/-- `MAX_REWRITES = 2` from `config.py`. -/
def MAX_REWRITES : Nat := 2

/-- A chunk dict.  Defaults mirror the `.get` defaults used by
`retrieval_node` (`doc_id` "", `chunk_idx` 0, `source` "session",
scores 0.0). -/
structure Chunk where
  text : String := ""
  doc_id : String := ""
  filename : String := ""
  page : Nat := 0
  chunk_idx : Nat := 0
  source : String := "session"
  score : ℚ := 0
  bm25_score : ℚ := 0
  rerank_score : ℚ := 0
deriving Repr, DecidableEq

/-- The dedup key `(chunk.get("doc_id", ""), chunk.get("chunk_idx", 0))`
used throughout `retrieval_node`. -/
abbrev ChunkKey := String × Nat

def Chunk.key (c : Chunk) : ChunkKey := (c.doc_id, c.chunk_idx)

/-! ## Reranker (`l88_backend/retrieval/reranker.py`) -/

/-- Stable insertion into a rerank-score-descending list: an element keeps
its position relative to equal scores, matching Python `sorted` (stable)
with `reverse=True`. -/
def insertDescBy (c : Chunk) : List Chunk → List Chunk
  | [] => [c]
  | d :: ds =>
    if d.rerank_score ≤ c.rerank_score then c :: d :: ds else d :: insertDescBy c ds

/-- Stable sort by descending `rerank_score`
(`sorted(chunks, key=lambda c: c["rerank_score"], reverse=True)`). -/
def sortByRerankDesc : List Chunk → List Chunk
  | [] => []
  | c :: cs => insertDescBy c (sortByRerankDesc cs)

/-- `rerank` from `retrieval/reranker.py`.  The cross-encoder
`model.predict` is the oracle `predict`.  NOTE the return value: the
source returns `ranked[:top_n]` — a bare list of chunks — and `[]` for an
empty input; no score accompanies the list. -/
def rerank (predict : String → String → ℚ) (query : String) (chunks : List Chunk)
    (top_n : Nat) : List Chunk :=
  if chunks.isEmpty then []
  else
    let scored := chunks.map (fun c => { c with rerank_score := predict query c.text })
    let ranked := sortByRerankDesc scored
    ranked.take top_n

/-! ## Retrieval node (`l88_backend/graph/nodes/retrieval.py`)

The per-query `faiss_results` / `bm25_results` dicts are association
lists with in-place-overwriting assignment; `set(a) | set(b)` is the
key union (Python set iteration order is unspecified; the model fixes
first-appearance order, on which no claim depends).  Embedding a query
and searching a loaded store collapse into per-query search oracles. -/

/-- Dicts keyed by `ChunkKey`. -/
abbrev ChunkDict := List (ChunkKey × Chunk)

/-- Python dict assignment `m[k] = c`. -/
def dictSetK (m : ChunkDict) (k : ChunkKey) (c : Chunk) : ChunkDict :=
  match m with
  | [] => [(k, c)]
  | (k0, c0) :: rest => if k0 = k then (k, c) :: rest else (k0, c0) :: dictSetK rest k c

/-- Python `m.get(k)`. -/
def dictGetK (m : ChunkDict) (k : ChunkKey) : Option Chunk :=
  match m with
  | [] => none
  | (k0, c0) :: rest => if k0 = k then some c0 else dictGetK rest k

/-- Building a result dict: `for chunk in results: d[key(chunk)] = chunk`. -/
def buildDict (cs : List Chunk) : ChunkDict :=
  cs.foldl (fun m c => dictSetK m c.key c) []

def dictKeys (m : ChunkDict) : List ChunkKey := m.map Prod.fst

/-- `all_keys = set(faiss_results) | set(bm25_results)`. -/
def unionKeys (fd bd : ChunkDict) : List ChunkKey :=
  (dictKeys fd ++ dictKeys bd).dedup

/-- Adaptive weighting (retrieval.py lines 87–94): weight 1.0 goes to one
whole side only when the other index produced no results at all for this
query. -/
def adaptiveWeights (vw bw : ℚ) (fd bd : ChunkDict) : ℚ × ℚ :=
  if fd.isEmpty && !bd.isEmpty then (0, 1)
  else if !fd.isEmpty && bd.isEmpty then (1, 0)
  else (vw, bw)

/-- Per-key blending (retrieval.py lines 101–108): base dict
`dict(faiss_chunk or bm25_chunk)` (FAISS precedence), fused `score`
with a missing side contributing `0.0`.  A key in neither dict cannot
arise from the key union and is skipped. -/
def blendKey (cvw cbw : ℚ) (fd bd : ChunkDict) (k : ChunkKey) : Option Chunk :=
  match dictGetK fd k, dictGetK bd k with
  | some fc, some bc => some { fc with score := cvw * fc.score + cbw * bc.bm25_score }
  | some fc, none => some { fc with score := cvw * fc.score + cbw * 0 }
  | none, some bc => some { bc with score := cvw * 0 + cbw * bc.bm25_score }
  | none, none => none

/-- The running `all_chunks` list and `seen` key set of `retrieval_node`. -/
structure GatherAcc where
  all_chunks : List Chunk := []
  seen : List ChunkKey := []
deriving Repr, DecidableEq

/-- Body of the `for key in all_keys` loop: skip seen keys, otherwise
record the key and append the blended chunk. -/
def blendStep (cvw cbw : ℚ) (fd bd : ChunkDict) (a : GatherAcc) (k : ChunkKey) :
    GatherAcc :=
  if k ∈ a.seen then a
  else
    match blendKey cvw cbw fd bd k with
    | none => a
    | some c => { all_chunks := a.all_chunks ++ [c], seen := a.seen ++ [k] }

/-- Session-mode handling of one query (retrieval.py lines 69–109). -/
def sessionRound (vw bw : ℚ) (faissRes bm25Res : List Chunk) (acc : GatherAcc) :
    GatherAcc :=
  let fd := buildDict faissRes
  let bd := buildDict bm25Res
  let w := adaptiveWeights vw bw fd bd
  (unionKeys fd bd).foldl (blendStep w.1 w.2 fd bd) acc

/-- Body of the web-mode `for chunk in lib_results` loop. -/
def webStep (a : GatherAcc) (c : Chunk) : GatherAcc :=
  if c.key ∈ a.seen then a
  else { all_chunks := a.all_chunks ++ [c], seen := a.seen ++ [c.key] }

/-- Web-mode handling of one query (retrieval.py lines 59–67): append
library hits whose key is unseen. -/
def webRound (libRes : List Chunk) (acc : GatherAcc) : GatherAcc :=
  libRes.foldl webStep acc

/-- External collaborators of `retrieval_node`: store sizes, per-query
search results for the session FAISS and BM25 stores, the optional
library store (`some` iff `index.faiss` exists on disk), and the
cross-encoder. -/
structure RetrievalEnv where
  sessionCount : Nat
  faissSearch : String → List Chunk
  bm25Count : Nat
  bm25Search : String → List Chunk
  library : Option (Nat × (String → List Chunk))
  predict : String → String → ℚ

/-- The slice of the pipeline state `retrieval_node` reads. -/
structure RetrievalInput where
  query : String
  rewritten_queries : Option (List String)
  selected_doc_ids : List String
  web_mode : Bool
  query_type : Option String

/-- `queries = state.get("rewritten_queries") or [state["query"]]`:
Python `or` falls through both on `None` and on the empty list. -/
def queriesOf (inp : RetrievalInput) : List String :=
  match inp.rewritten_queries with
  | some (q :: qs) => q :: qs
  | _ => [inp.query]

/-- `bm25_weight = 0.6 if query_type == "simple" else 0.2`. -/
def bm25WeightFor (query_type : String) : ℚ :=
  if query_type = "simple" then 6/10 else 2/10

/-- One iteration of the `for q in queries` loop of `retrieval_node`. -/
def retrievalRound (env : RetrievalEnv) (inp : RetrievalInput) (vw bw : ℚ)
    (acc : GatherAcc) (q : String) : GatherAcc :=
  if inp.web_mode then
    match env.library with
    | some lib => if 0 < lib.1 then webRound (lib.2 q) acc else acc
    | none => acc
  else
    let fRes := if 0 < env.sessionCount then env.faissSearch q else []
    let bRes := if 0 < env.bm25Count then env.bm25Search q else []
    sessionRound vw bw fRes bRes acc

/-- The gathering loop of `retrieval_node` over an explicit query list. -/
def gatherOver (env : RetrievalEnv) (inp : RetrievalInput) (qs : List String) :
    GatherAcc :=
  let bw := bm25WeightFor (inp.query_type.getD "simple")
  qs.foldl (retrievalRound env inp (1 - bw) bw) {}

/-- The gathering loop of `retrieval_node` (lines 30–109). -/
def gatherChunks (env : RetrievalEnv) (inp : RetrievalInput) : GatherAcc :=
  gatherOver env inp (queriesOf inp)

/-- The selected-doc filter (retrieval.py lines 112–119): applied only
when some doc is selected; library chunks always pass. -/
def filterSelected (selected_doc_ids : List String) (chunks : List Chunk) :
    List Chunk :=
  if selected_doc_ids.isEmpty then chunks
  else chunks.filter
    (fun c => c.source == "library" || selected_doc_ids.contains c.doc_id)

/-- The dict returned by `retrieval_node` on the non-raising path. -/
structure RetrievalOut where
  chunks : List Chunk
  found : Bool
  confident : Bool
deriving Repr, DecidableEq

/-- `retrieval_node` from `graph/nodes/retrieval.py`.  Final stage
(lines 121–131): when chunks were gathered the source executes
`all_chunks, top_score = rerank(original_query, all_chunks, top_n=RERANK_TOP_N)`,
tuple-unpacking the LIST that `rerank` returns; a list of length ≠ 2
raises `ValueError`, and at length exactly 2 the following
`top_score >= 0.7` compares a chunk dict against a float and raises
`TypeError`.  Exceptions are modelled as `Except.error`. -/
def retrieval_node (env : RetrievalEnv) (inp : RetrievalInput) :
    Except String RetrievalOut :=
  let all_chunks := filterSelected inp.selected_doc_ids (gatherChunks env inp).all_chunks
  if all_chunks.isEmpty then
    .ok { chunks := [], found := false, confident := false }
  else
    match rerank env.predict inp.query all_chunks RERANK_TOP_N with
    | [_] => .error "ValueError: not enough values to unpack"
    | [_, _] => .error "TypeError: unsupported comparison between dict and float"
    | _ => .error "ValueError: too many values to unpack"

/-! ## C4: the reranker contract -/

/-- A concrete cross-encoder oracle for evaluation. -/
def predictHalf : String → String → ℚ := fun _ _ => 1/2

def chunkA : Chunk := { text := "alpha", doc_id := "d1", chunk_idx := 0, score := 1 }

def chunkB : Chunk := { text := "beta", doc_id := "d1", chunk_idx := 1, bm25_score := 1 }

def envC4 : RetrievalEnv :=
  { sessionCount := 1, faissSearch := fun _ => [chunkA], bm25Count := 0,
    bm25Search := fun _ => [], library := none, predict := predictHalf }

def inpC4 : RetrievalInput :=
  { query := "q", rewritten_queries := none, selected_doc_ids := [],
    web_mode := false, query_type := none }

/-- C4: the claim that `rerank(query, chunks, top_n)` returns a PAIR
`(chunks, top_score)` — and an empty result AND score 0 on empty input —
fails on the code: `rerank` returns only the sorted top-n chunk list
(a one-element list here, `[]` on empty input), and the tuple-unpacking
`all_chunks, top_score = rerank(...)` in `retrieval_node` consequently
raises on this one-chunk retrieval. -/
theorem C4_rerank_returns_bare_list :
    rerank predictHalf "q" [chunkA] RERANK_TOP_N
        = [{ chunkA with rerank_score := 1/2 }] ∧
    rerank predictHalf "q" [] RERANK_TOP_N = [] ∧
    retrieval_node envC4 inpC4 = .error "ValueError: not enough values to unpack" :=
  ⟨rfl, rfl, rfl⟩

/-! ## C5: hybrid fusion weights -/

def envC5 : RetrievalEnv :=
  { sessionCount := 1, faissSearch := fun _ => [chunkA], bm25Count := 1,
    bm25Search := fun _ => [chunkB], library := none, predict := predictHalf }

def inpC5 : RetrievalInput :=
  { query := "q", rewritten_queries := none, selected_doc_ids := [],
    web_mode := false, query_type := some "simple" }

/-- C5 counterexample: `query_type = simple`, FAISS returns only chunk
(d1,0) (dense score 1), BM25 returns only chunk (d1,1) (bm25 score 1).
Key (d1,1) is produced by exactly one of the two indexes, so the claim
requires its recorded score to be `1.0 * 1.0 = 1`; the code — both
result dicts being nonempty — keeps the standard (0.4, 0.6) weights and
records `0.4 * 0 + 0.6 * 1 = 3/5 ≠ 1`. -/
theorem C5_per_key_unit_weight_fails :
    (gatherChunks envC5 inpC5).all_chunks.map Chunk.score
        = [(1 - 6/10) * 1 + 6/10 * 0, (1 - 6/10) * 0 + 6/10 * 1] ∧
    ((1 : ℚ) - 6/10) * 0 + 6/10 * 1 = 3/5 ∧ ¬ ((3 : ℚ)/5 = 1) := by
  refine ⟨rfl, by norm_num, by norm_num⟩

/-- Dense score looked up at a key, `0.0` when absent. -/
def denseScoreAt (fd : ChunkDict) (k : ChunkKey) : ℚ :=
  match dictGetK fd k with
  | some c => c.score
  | none => 0

/-- BM25 score looked up at a key, `0.0` when absent. -/
def bm25ScoreAt (bd : ChunkDict) (k : ChunkKey) : ℚ :=
  match dictGetK bd k with
  | some c => c.bm25_score
  | none => 0

/-- The per-key fused score the session-mode loop records. -/
def fusedScoreAt (vw bw : ℚ) (fd bd : ChunkDict) (k : ChunkKey) : ℚ :=
  (adaptiveWeights vw bw fd bd).1 * denseScoreAt fd k
    + (adaptiveWeights vw bw fd bd).2 * bm25ScoreAt bd k

/-- The session FAISS and BM25 result lists for one query, empty when the
respective store is empty. -/
def sessionResultsFor (env : RetrievalEnv) (q : String) : List Chunk × List Chunk :=
  (if 0 < env.sessionCount then env.faissSearch q else [],
   if 0 < env.bm25Count then env.bm25Search q else [])

/-- Every chunk of a keyed result dict is stored under its own key. -/
def DictKeyed (m : ChunkDict) : Prop := ∀ p ∈ m, (p.2).key = p.1

theorem dictSetK_keyed (m : ChunkDict) (k : ChunkKey) (c : Chunk)
    (hm : DictKeyed m) (hc : c.key = k) : DictKeyed (dictSetK m k c) := by
  induction m with
  | nil => intro p hp; simp [dictSetK] at hp; simp [hp, hc]
  | cons p0 rest ih =>
    obtain ⟨k0, c0⟩ := p0
    by_cases h0 : k0 = k
    · intro p hp
      simp only [dictSetK, if_pos h0] at hp
      rcases List.mem_cons.mp hp with h | h
      · simp [h, hc]
      · exact hm p (List.mem_cons.mpr (Or.inr h))
    · intro p hp
      simp only [dictSetK, if_neg h0] at hp
      rcases List.mem_cons.mp hp with h | h
      · exact h ▸ hm (k0, c0) (List.mem_cons.mpr (Or.inl rfl))
      · exact ih (fun p2 hp2 => hm p2 (List.mem_cons.mpr (Or.inr hp2))) p h

theorem buildDict_keyed (cs : List Chunk) : DictKeyed (buildDict cs) := by
  suffices hgen : ∀ m, DictKeyed m →
      DictKeyed (cs.foldl (fun m c => dictSetK m c.key c) m) from
    hgen [] (by intro p hp; simp at hp)
  induction cs with
  | nil => intro m hm; exact hm
  | cons c rest ih =>
    intro m hm
    exact ih (dictSetK m c.key c) (dictSetK_keyed m c.key c hm rfl)

theorem dictGetK_mem (m : ChunkDict) (k : ChunkKey) (c : Chunk)
    (h : dictGetK m k = some c) : (k, c) ∈ m := by
  induction m with
  | nil => simp [dictGetK] at h
  | cons p0 rest ih =>
    obtain ⟨k0, c0⟩ := p0
    by_cases h0 : k0 = k
    · simp only [dictGetK, if_pos h0, Option.some.injEq] at h
      simp [h0, h]
    · simp only [dictGetK, if_neg h0] at h
      exact List.mem_cons.mpr (Or.inr (ih h))

theorem dictGetK_keyed (m : ChunkDict) (k : ChunkKey) (c : Chunk)
    (hm : DictKeyed m) (h : dictGetK m k = some c) : c.key = k :=
  hm (k, c) (dictGetK_mem m k c h)

/-- Blending produces exactly the weighted per-key formula (missing side
contributing 0), and the produced chunk carries the blended key. -/
theorem blendKey_spec (cvw cbw : ℚ) (fd bd : ChunkDict) (k : ChunkKey) (c : Chunk)
    (hfd : DictKeyed fd) (hbd : DictKeyed bd)
    (h : blendKey cvw cbw fd bd k = some c) :
    c.key = k ∧ c.score = cvw * denseScoreAt fd k + cbw * bm25ScoreAt bd k := by
  unfold blendKey at h
  cases hf : dictGetK fd k with
  | none =>
    cases hb : dictGetK bd k with
    | none => rw [hf, hb] at h; exact absurd h (by simp)
    | some bc =>
      rw [hf, hb] at h
      have hc := Option.some.inj h
      have hkey : bc.key = k := dictGetK_keyed bd k bc hbd hb
      constructor
      · rw [← hc]; simpa [Chunk.key] using hkey
      · rw [← hc]; simp [denseScoreAt, bm25ScoreAt, hf, hb]
  | some fc =>
    cases hb : dictGetK bd k with
    | none =>
      rw [hf, hb] at h
      have hc := Option.some.inj h
      have hkey : fc.key = k := dictGetK_keyed fd k fc hfd hf
      constructor
      · rw [← hc]; simpa [Chunk.key] using hkey
      · rw [← hc]; simp [denseScoreAt, bm25ScoreAt, hf, hb]
    | some bc =>
      rw [hf, hb] at h
      have hc := Option.some.inj h
      have hkey : fc.key = k := dictGetK_keyed fd k fc hfd hf
      constructor
      · rw [← hc]; simpa [Chunk.key] using hkey
      · rw [← hc]; simp [denseScoreAt, bm25ScoreAt, hf, hb]

theorem blendFold_mem (cvw cbw : ℚ) (fd bd : ChunkDict) (ks : List ChunkKey)
    (acc : GatherAcc) (c : Chunk)
    (hc : c ∈ (ks.foldl (blendStep cvw cbw fd bd) acc).all_chunks) :
    c ∈ acc.all_chunks ∨ ∃ k, blendKey cvw cbw fd bd k = some c := by
  induction ks generalizing acc with
  | nil => exact Or.inl hc
  | cons k ks ih =>
    rw [List.foldl_cons] at hc
    rcases ih (blendStep cvw cbw fd bd acc k) hc with h | h
    · unfold blendStep at h
      by_cases hseen : k ∈ acc.seen
      · rw [if_pos hseen] at h; exact Or.inl h
      · rw [if_neg hseen] at h
        cases hblend : blendKey cvw cbw fd bd k with
        | none => rw [hblend] at h; exact Or.inl h
        | some c2 =>
          rw [hblend] at h
          simp only [List.mem_append, List.mem_singleton] at h
          rcases h with h | h
          · exact Or.inl h
          · exact Or.inr ⟨k, h ▸ hblend⟩
    · exact Or.inr h

theorem sessionRound_mem (vw bw : ℚ) (f b : List Chunk) (acc : GatherAcc) (c : Chunk)
    (hc : c ∈ (sessionRound vw bw f b acc).all_chunks) :
    c ∈ acc.all_chunks ∨
      ∃ k, blendKey (adaptiveWeights vw bw (buildDict f) (buildDict b)).1
        (adaptiveWeights vw bw (buildDict f) (buildDict b)).2
        (buildDict f) (buildDict b) k = some c := by
  unfold sessionRound at hc
  exact blendFold_mem _ _ _ _ _ acc c hc

theorem gatherFold_score (env : RetrievalEnv) (inp : RetrievalInput) (vw bw : ℚ)
    (qs : List String) (acc : GatherAcc) (hweb : inp.web_mode = false) (c : Chunk)
    (hc : c ∈ (qs.foldl (retrievalRound env inp vw bw) acc).all_chunks) :
    c ∈ acc.all_chunks ∨
      ∃ q ∈ qs, c.score = fusedScoreAt vw bw
        (buildDict (sessionResultsFor env q).1)
        (buildDict (sessionResultsFor env q).2) c.key := by
  induction qs generalizing acc with
  | nil => exact Or.inl hc
  | cons q qs ih =>
    rw [List.foldl_cons] at hc
    rcases ih (retrievalRound env inp vw bw acc q) hc with h | h
    · unfold retrievalRound at h
      rw [hweb] at h
      simp only [if_false, Bool.false_eq_true] at h
      rcases sessionRound_mem vw bw _ _ acc c h with h2 | ⟨k, hk⟩
      · exact Or.inl h2
      · right
        refine ⟨q, List.mem_cons_self q qs, ?_⟩
        obtain ⟨hkey, hscore⟩ := blendKey_spec _ _ _ _ k c
          (buildDict_keyed _) (buildDict_keyed _) hk
        rw [hkey, hscore]
        rfl
    · rcases h with ⟨q2, hq2, hsc⟩
      exact Or.inr ⟨q2, List.mem_cons_of_mem q hq2, hsc⟩

/-- C5 (amended): in session mode, for every merged key the recorded
score is `w_dense * dense + w_bm25 * bm25` at that key for the query that
first produced it, with `(w_dense, w_bm25) = (0.4, 0.6)` when
`query_type = simple` and `(0.8, 0.2)` otherwise — EXCEPT that when one
of the two indexes returned no results at all for that query, the other
side gets weight 1.0.  (A key present in only one result dict while both
dicts are nonempty keeps the standard weights, the missing side
contributing 0 — this is where the claim as stated fails.) -/
theorem C5_fused_score_amended (env : RetrievalEnv) (inp : RetrievalInput)
    (hweb : inp.web_mode = false) (c : Chunk)
    (hc : c ∈ (gatherChunks env inp).all_chunks) :
    bm25WeightFor "simple" = 6/10 ∧
    (∀ qt, ¬ qt = "simple" → bm25WeightFor qt = 2/10) ∧
    ∃ q ∈ queriesOf inp,
      c.score = fusedScoreAt (1 - bm25WeightFor (inp.query_type.getD "simple"))
        (bm25WeightFor (inp.query_type.getD "simple"))
        (buildDict (sessionResultsFor env q).1)
        (buildDict (sessionResultsFor env q).2) c.key := by
  refine ⟨rfl, ?_, ?_⟩
  · intro qt hqt; simp [bm25WeightFor, hqt]
  · have h := gatherFold_score env inp _ _ (queriesOf inp) {} hweb c hc
    rcases h with h | h
    · simp at h
    · exact h

/-- Witness for C5 (amended) at the concrete counterexample environment:
the only-BM25 chunk (d1,1) satisfies the per-query formula. -/
theorem C5_fused_score_amended_witness :
    ∃ c, c ∈ (gatherChunks envC5 inpC5).all_chunks ∧
      ∃ q ∈ queriesOf inpC5,
        c.score = fusedScoreAt (1 - bm25WeightFor (inpC5.query_type.getD "simple"))
          (bm25WeightFor (inpC5.query_type.getD "simple"))
          (buildDict (sessionResultsFor envC5 q).1)
          (buildDict (sessionResultsFor envC5 q).2) c.key := by
  refine ⟨{ chunkB with score := (1 - 6/10) * 0 + 6/10 * 1 }, ?_, ?_⟩
  · show _ ∈ (gatherChunks envC5 inpC5).all_chunks
    rw [show (gatherChunks envC5 inpC5).all_chunks
        = [{ chunkA with score := (1 - 6/10) * 1 + 6/10 * 0 },
           { chunkB with score := (1 - 6/10) * 0 + 6/10 * 1 }] from rfl]
    simp
  · exact (C5_fused_score_amended envC5 inpC5 rfl _
      (by rw [show (gatherChunks envC5 inpC5).all_chunks
          = [{ chunkA with score := (1 - 6/10) * 1 + 6/10 * 0 },
             { chunkB with score := (1 - 6/10) * 0 + 6/10 * 1 }] from rfl]
          simp)).2.2

/-! ## C8: deduplication by key -/

/-- Loop invariant of the gathering stage: `seen` is exactly the key list
of `all_chunks`, and those keys are pairwise distinct. -/
def AccInv (acc : GatherAcc) : Prop :=
  acc.seen = acc.all_chunks.map Chunk.key ∧ (acc.all_chunks.map Chunk.key).Nodup

theorem blendFold_inv (cvw cbw : ℚ) (fd bd : ChunkDict) (hfd : DictKeyed fd)
    (hbd : DictKeyed bd) (ks : List ChunkKey) (acc : GatherAcc) (h : AccInv acc) :
    AccInv (ks.foldl (blendStep cvw cbw fd bd) acc) ∧
      acc.all_chunks <+: (ks.foldl (blendStep cvw cbw fd bd) acc).all_chunks := by
  induction ks generalizing acc with
  | nil => exact ⟨h, List.prefix_refl _⟩
  | cons k ks ih =>
    rw [List.foldl_cons]
    have hstep : AccInv (blendStep cvw cbw fd bd acc k) ∧
        acc.all_chunks <+: (blendStep cvw cbw fd bd acc k).all_chunks := by
      unfold blendStep
      by_cases hseen : k ∈ acc.seen
      · rw [if_pos hseen]; exact ⟨h, List.prefix_refl _⟩
      · rw [if_neg hseen]
        cases hblend : blendKey cvw cbw fd bd k with
        | none => exact ⟨h, List.prefix_refl _⟩
        | some c =>
          obtain ⟨hkey, _⟩ := blendKey_spec _ _ _ _ k c hfd hbd hblend
          obtain ⟨hseen_eq, hnd⟩ := h
          refine ⟨⟨?_, ?_⟩, ?_⟩
          · simp [hseen_eq, hkey]
          · rw [List.map_append]
            simp only [List.map_cons, List.map_nil, hkey]
            rw [List.nodup_append]
            refine ⟨hnd, List.nodup_singleton k, ?_⟩
            intro x hx hk2
            simp only [List.mem_singleton] at hk2
            subst hk2
            exact hseen (hseen_eq ▸ hx)
          · exact ⟨[c], rfl⟩
    obtain ⟨h1, h2⟩ := ih (blendStep cvw cbw fd bd acc k) hstep.1
    exact ⟨h1, hstep.2.trans h2⟩

theorem webFold_inv (rs : List Chunk) (acc : GatherAcc) (h : AccInv acc) :
    AccInv (webRound rs acc) ∧ acc.all_chunks <+: (webRound rs acc).all_chunks := by
  unfold webRound
  induction rs generalizing acc with
  | nil => exact ⟨h, List.prefix_refl _⟩
  | cons c rs ih =>
    rw [List.foldl_cons]
    have hstep : AccInv (webStep acc c) ∧ acc.all_chunks <+: (webStep acc c).all_chunks := by
      unfold webStep
      by_cases hseen : c.key ∈ acc.seen
      · rw [if_pos hseen]; exact ⟨h, List.prefix_refl _⟩
      · rw [if_neg hseen]
        obtain ⟨hseen_eq, hnd⟩ := h
        refine ⟨⟨?_, ?_⟩, ?_⟩
        · simp [hseen_eq]
        · rw [List.map_append]
          simp only [List.map_cons, List.map_nil]
          rw [List.nodup_append]
          refine ⟨hnd, List.nodup_singleton _, ?_⟩
          intro x hx hk2
          simp only [List.mem_singleton] at hk2
          subst hk2
          exact hseen (hseen_eq ▸ hx)
        · exact ⟨[c], rfl⟩
    obtain ⟨h1, h2⟩ := ih (webStep acc c) hstep.1
    exact ⟨h1, hstep.2.trans h2⟩

theorem retrievalRound_inv (env : RetrievalEnv) (inp : RetrievalInput) (vw bw : ℚ)
    (acc : GatherAcc) (q : String) (h : AccInv acc) :
    AccInv (retrievalRound env inp vw bw acc q) ∧
      acc.all_chunks <+: (retrievalRound env inp vw bw acc q).all_chunks := by
  unfold retrievalRound
  by_cases hweb : inp.web_mode = true
  · rw [if_pos hweb]
    cases env.library with
    | none => exact ⟨h, List.prefix_refl _⟩
    | some lib =>
      by_cases hcnt : 0 < lib.1
      · simp only [hcnt, if_true]
        exact webFold_inv (lib.2 q) acc h
      · simp only [hcnt, if_false]
        exact ⟨h, List.prefix_refl _⟩
  · rw [if_neg hweb]
    unfold sessionRound
    exact blendFold_inv _ _ _ _ (buildDict_keyed _) (buildDict_keyed _) _ acc h

theorem gatherFold_inv (env : RetrievalEnv) (inp : RetrievalInput) (vw bw : ℚ)
    (qs : List String) (acc : GatherAcc) (h : AccInv acc) :
    AccInv (qs.foldl (retrievalRound env inp vw bw) acc) ∧
      acc.all_chunks <+: (qs.foldl (retrievalRound env inp vw bw) acc).all_chunks := by
  induction qs generalizing acc with
  | nil => exact ⟨h, List.prefix_refl _⟩
  | cons q qs ih =>
    rw [List.foldl_cons]
    obtain ⟨h1, h2⟩ := retrievalRound_inv env inp vw bw acc q h
    obtain ⟨h3, h4⟩ := ih (retrievalRound env inp vw bw acc q) h1
    exact ⟨h3, h2.trans h4⟩

/-- C8: every `(doc_id, chunk_idx)` key occurs at most once in the
gathered chunk list (over any query list, in both session and web mode);
extending the query list only appends — the chunk kept for a key is the
one from the first query that produced it — and the selected-doc filter
preserves key uniqueness. -/
theorem C8_dedup_by_key (env : RetrievalEnv) (inp : RetrievalInput)
    (qs qs2 : List String) (sel : List String) :
    ((gatherOver env inp qs).all_chunks.map Chunk.key).Nodup ∧
    (gatherOver env inp qs).all_chunks <+: (gatherOver env inp (qs ++ qs2)).all_chunks ∧
    ((filterSelected sel (gatherOver env inp qs).all_chunks).map Chunk.key).Nodup := by
  have hbase : AccInv ({} : GatherAcc) := ⟨rfl, List.nodup_nil⟩
  have h1 := gatherFold_inv env inp
    (1 - bm25WeightFor (inp.query_type.getD "simple"))
    (bm25WeightFor (inp.query_type.getD "simple")) qs {} hbase
  refine ⟨h1.1.2, ?_, ?_⟩
  · unfold gatherOver
    rw [List.foldl_append]
    exact (gatherFold_inv env inp _ _ qs2 _ h1.1).2
  · have hsub : List.Sublist (filterSelected sel (gatherOver env inp qs).all_chunks)
        ((gatherOver env inp qs).all_chunks) := by
      unfold filterSelected
      by_cases hsel : sel.isEmpty
      · rw [if_pos hsel]
      · rw [if_neg hsel]; exact List.filter_sublist _
    exact ((hsub.map Chunk.key).nodup h1.1.2)

/-! ## Pipeline state and nodes
(`l88_backend/graph/state.py`, `graph/nodes/*.py`)

The LangGraph `L88State` TypedDict is a record; keys that can be absent
are `Option` (`none` = missing; `.get` defaults are applied at the use
sites exactly as in the sources).  Each node computes an update dict that
is merged into the state; the embedding applies the update as a record
update.  LLM calls together with their JSON extraction are outcome
oracles (`none` = parse failure). -/

/-- One entry of the generator's `sources` list. -/
structure SrcAnn where
  filename : String := ""
  page : Nat := 0
  excerpt : String := ""
  source : String := "session"
deriving Repr, DecidableEq

/-- The pipeline state (`graph/state.py`), with the initial-state fields
`run_chat` passes (query, session_id, selected_doc_ids, web_mode,
rewrite_count = 0, last_verdict = "", chunks = [], found = False,
rewritten_queries = None) and everything else initially absent. -/
structure GState where
  query : String
  session_id : String
  selected_doc_ids : List String
  web_mode : Bool
  route : Option String := none
  query_type : Option String := none
  strategy : Option String := none
  rewritten_queries : Option (List String) := none
  rewrite_count : Nat := 0
  last_verdict : String := ""
  chunks : List Chunk := []
  found : Bool := false
  context_verdict : Option String := none
  reasoning : Option String := none
  answer : Option String := none
  sources : List SrcAnn := []
  missing_info : Option String := none
  verdict : Option String := none
  confident : Option Bool := none
deriving Repr, DecidableEq

/-- Keyword set from `graph/nodes/router.py`. -/
def _SUMMARIZE_KEYWORDS : List String :=
  ["summarize", "summary", "summarise", "overview", "tldr", "tl;dr", "tl-dr",
   "brief", "outline", "recap", "summerize", "summerise"]

/-- `router_node` from `graph/nodes/router.py`: the `route` value of the
returned update dict (pure logic, no LLM). -/
def router_node (query : String) (selected_doc_ids : List String)
    (web_mode : Bool) : String :=
  let has_docs := !selected_doc_ids.isEmpty
  let query_lower := pyLower query
  let is_summarize := _SUMMARIZE_KEYWORDS.any (fun kw => strContains query_lower kw)
  if web_mode then "rag"
  else if has_docs && is_summarize then "summarize"
  else if has_docs then "rag"
  else "chat"

/-- Validation shared by analyzer and rewriter:
`if query_type not in ("simple", "multi_hop", "math", "comparison")`. -/
def validateQueryType (qt : String) : String :=
  if qt = "simple" ∨ qt = "multi_hop" ∨ qt = "math" ∨ qt = "comparison" then qt
  else "simple"

/-- Analyzer validation:
`if strategy not in ("single", "decompose", "step_back")`. -/
def validateStrategy (st : String) : String :=
  if st = "single" ∨ st = "decompose" ∨ st = "step_back" then st else "single"

/-- A successful `json.loads` outcome of the generator's structured call,
with the `result.get` defaults already applied. -/
structure GenParse where
  context_verdict : String := "SUFFICIENT"
  reasoning : String := ""
  answer : String := ""
  missing_info : String := ""
  sources : List SrcAnn := []
deriving Repr, DecidableEq

/-- External collaborators of the graph nodes. -/
structure Env where
  analyzerParse : String → Option (String × String)
  rewriterParse : String → Nat → String → Option (String × String × List String)
  chatAnswer : String → String
  ragParse : String → List Chunk → Option GenParse
  ragRaw : String → List Chunk → String
  evalResponse : String → String → List Chunk → String
  retrieval : RetrievalEnv

/-- Fields written by `query_analyzer_node` (`graph/nodes/query_analyzer.py`). -/
def analyzerPayload (env : Env) (s : GState) : String × String :=
  match env.analyzerParse s.query with
  | some p => (validateQueryType p.1, validateStrategy p.2)
  | none => ("simple", "single")

def query_analyzer_node (env : Env) (s : GState) : GState :=
  let p := analyzerPayload env s
  { s with query_type := some p.1, strategy := some p.2 }

/-- Fields computed by `query_rewriter_node`
(`graph/nodes/query_rewriter.py`): the prompt construction (acronym
pre-expansion, retry hint) only shapes the LLM prompt and is absorbed
into the oracle, which receives the raw query, the current
`rewrite_count` and `last_verdict`; `none` is the exception path.  The
parsed queries are already a string list, so the
`isinstance(queries, list)` repair branch cannot fire. -/
def rewriterPayload (env : Env) (s : GState) : String × String × List String :=
  let parsed :=
    match env.rewriterParse s.query s.rewrite_count s.last_verdict with
    | some p => p
    | none => (s.query_type.getD "simple", "single", [s.query])
  let query_type := validateQueryType parsed.1
  let queries := (parsed.2.2).take 3
  let queries2 := if s.query ∈ queries then queries else s.query :: queries.take 2
  (query_type, parsed.2.1, queries2)

/-- `query_rewriter_node`: writes the payload and increments
`rewrite_count` on every invocation. -/
def query_rewriter_node (env : Env) (s : GState) : GState :=
  let p := rewriterPayload env s
  { s with
    query_type := some p.1, strategy := some p.2.1,
    rewritten_queries := some p.2.2, rewrite_count := s.rewrite_count + 1 }

/-- `context_verdict` validation (generator.py lines 180–187):
case-insensitive keyword search with fallback SUFFICIENT. -/
def validateContextVerdict (cv : String) : String :=
  if cv = "SUFFICIENT" ∨ cv = "GAP" ∨ cv = "EMPTY" then cv
  else if strContains (pyLower cv) "sufficient" then "SUFFICIENT"
  else if strContains (pyLower cv) "gap" then "GAP"
  else if strContains (pyLower cv) "empty" then "EMPTY"
  else "SUFFICIENT"

/-- `source_map = {c.get("filename"): c.get("source", "session") for c in chunks}`
(later chunks overwrite earlier ones) followed by
`source_map.get(fname, "session")`. -/
def sourceFor (chunks : List Chunk) (fname : String) : String :=
  match chunks.reverse.find? (fun c => c.filename == fname) with
  | some c => c.source
  | none => "session"

/-- Source back-mapping applied to the parsed `sources` list. -/
def mapSources (chunks : List Chunk) (srcs : List SrcAnn) : List SrcAnn :=
  srcs.map (fun a => { a with source := sourceFor chunks a.filename })

/-- The update fields `generator_node` returns. -/
structure GenOut where
  context_verdict : String
  reasoning : String
  answer : String
  sources : List SrcAnn
  missing_info : String
deriving Repr, DecidableEq

/-- Fields written by `generator_node` (`graph/nodes/generator.py`),
paired with whether an LLM call was made. -/
def generatorPayload (env : Env) (s : GState) : GenOut × Bool :=
  let route := s.route.getD "rag"
  if route = "chat" then
    ({ context_verdict := "SUFFICIENT", reasoning := "",
       answer := env.chatAnswer s.query, sources := [], missing_info := "" }, true)
  else if s.found = false then
    ({ context_verdict := "EMPTY", reasoning := "",
       answer := "No information found in the selected sources.",
       sources := [], missing_info := "No relevant chunks retrieved." }, false)
  else
    match env.ragParse s.query s.chunks with
    | some p =>
      ({ context_verdict := validateContextVerdict p.context_verdict,
         reasoning := p.reasoning, answer := p.answer,
         sources := mapSources s.chunks p.sources,
         missing_info := p.missing_info }, true)
    | none =>
      ({ context_verdict := "SUFFICIENT", reasoning := "",
         answer := pyStrip (env.ragRaw s.query s.chunks), sources := [],
         missing_info := "" }, true)

/-- `generator_node`: merge the payload and copy `context_verdict` into
`last_verdict`; the Bool is the made-an-LLM-call flag. -/
def generator_node (env : Env) (s : GState) : GState × Bool :=
  let p := generatorPayload env s
  ({ s with
     context_verdict := some p.1.context_verdict,
     reasoning := some p.1.reasoning, answer := some p.1.answer,
     sources := p.1.sources, missing_info := some p.1.missing_info,
     last_verdict := p.1.context_verdict }, p.2)

/-- Verdict parsing of `self_evaluator_node` (lines 47–59): exact match
on the upper-cased stripped reply, then keyword search in the order
GOOD, UNSURE, BAD, else UNSURE. -/
def parseEvalVerdict (response : String) : String :=
  let r := pyUpper (pyStrip response)
  if r = "GOOD" ∨ r = "UNSURE" ∨ r = "BAD" then r
  else if strContains r "GOOD" then "GOOD"
  else if strContains r "UNSURE" then "UNSURE"
  else if strContains r "BAD" then "BAD"
  else "UNSURE"

/-- `self_evaluator_node`: verdict, `confident = (verdict == "GOOD")`,
and `last_verdict`. -/
def self_evaluator_node (env : Env) (s : GState) : GState :=
  let v := parseEvalVerdict (env.evalResponse s.query (s.answer.getD "") s.chunks)
  { s with
    verdict := some v, confident := some (decide (v = "GOOD")),
    last_verdict := v }

/-- Python `"sep".join`. -/
def joinSep (sep : String) : List String → String
  | [] => ""
  | [x] => x
  | x :: y :: xs => x ++ sep ++ joinSep sep (y :: xs)

/-- `summarizer_node` from `graph/nodes/summarizer.py` — present in the
sources but never imported by `graph/graph.py` nor added to the compiled
graph.  Loading `metadata.json` is the oracle `metaChunks` (`none`
models FileNotFoundError / JSONDecodeError); the LLM call receives the
concatenated text truncated to 12000 characters. -/
def summarizer_node (metaChunks : Option (List Chunk)) (llm : String → String)
    (s : GState) : GState :=
  let all_chunks := match metaChunks with | some cs => cs | none => []
  let doc_chunks := all_chunks.filter (fun c => s.selected_doc_ids.contains c.doc_id)
  let all_text := joinSep "\n\n" (doc_chunks.map Chunk.text)
  if pyStrip all_text = "" then
    { s with
      answer := some "Could not load document content for summarization.",
      confident := some false, context_verdict := some "EMPTY", sources := [],
      reasoning := some "", missing_info := some "" }
  else
    { s with
      answer := some (llm ⟨all_text.data.take 12000⟩),
      confident := some true, context_verdict := some "SUFFICIENT", sources := [],
      reasoning := some "", missing_info := some "" }

/-! ## Edges (`l88_backend/graph/edges.py`) and graph wiring
(`l88_backend/graph/graph.py`)

`graph.py` imports `route_after_analyzer` from `edges.py`, but `edges.py`
defines only the other three routing functions: that symbol exists
nowhere under the sources, so it is modelled from the spec below.  Each
`add_conditional_edges` mapping dict becomes a partial `String → Option
Node` map; routing to a string missing from the mapping is a runtime
failure of the graph framework. -/

/-- `route_after_router`: `return state["route"]` (the router has always
written `route` when this runs; a missing key would be a KeyError). -/
def route_after_router (s : GState) : String := s.route.getD ""

/-- Modelled from the spec: `route_after_analyzer` is imported by
`graph/graph.py` but missing from `graph/edges.py` and from every other
source file.  The spec state machine (§4.9) sends the analyzer
unconditionally onward: `analyzer → rewriter → retrieval → generator`. -/
def route_after_analyzer (_s : GState) : String := "query_rewriter"

/-- `route_after_generator` from `graph/edges.py` (the source's local
`verdict = state.get("context_verdict", "SUFFICIENT")` is inlined). -/
def route_after_generator (s : GState) : String :=
  if s.query_type = some "simple" ∧ s.context_verdict = some "SUFFICIENT" then
    "output"
  else if s.context_verdict.getD "SUFFICIENT" = "SUFFICIENT" then "self_evaluator"
  else if s.rewrite_count < MAX_REWRITES then "query_rewriter"
  else if s.context_verdict.getD "SUFFICIENT" = "EMPTY" then "not_found"
  else "self_evaluator"

/-- `route_after_self_eval` from `graph/edges.py`. -/
def route_after_self_eval (s : GState) : String :=
  if s.verdict.getD "GOOD" = "GOOD" then "output"
  else if s.rewrite_count < MAX_REWRITES then "query_rewriter"
  else "output"

/-- The graph's node names. -/
inductive Node
  | router | query_analyzer | query_rewriter | retrieval | generator
  | self_evaluator | not_found | error | output
deriving Repr, DecidableEq

/-- Conditional-edge mapping after `router` (graph.py lines 81–89).
NOTE: no entry for "summarize", and no summarizer node is ever added. -/
def routerEdges : String → Option Node
  | "rag" => some .query_analyzer
  | "chat" => some .generator
  | "error" => some .error
  | _ => none

/-- Conditional-edge mapping after `query_analyzer` (graph.py lines 92–100). -/
def analyzerEdges : String → Option Node
  | "retrieval" => some .retrieval
  | "query_rewriter" => some .query_rewriter
  | _ => none

/-- Conditional-edge mapping after `generator` (graph.py lines 109–117).
NOTE: no entry for "output", which `route_after_generator` can return. -/
def generatorEdges : String → Option Node
  | "self_evaluator" => some .self_evaluator
  | "query_rewriter" => some .query_rewriter
  | "not_found" => some .not_found
  | _ => none

/-- Conditional-edge mapping after `self_evaluator` (graph.py lines 120–127). -/
def selfEvalEdges : String → Option Node
  | "output" => some .output
  | "query_rewriter" => some .query_rewriter
  | _ => none

/-- Machine state: the next node to execute, the pipeline state, and a
ghost counter of generator executions (not part of the Python state;
used only to state the loop bound). -/
structure MState where
  node : Node
  st : GState
  gen_calls : Nat
deriving Repr, DecidableEq

/-- Result of executing one node and following its outgoing edge. -/
inductive StepRes
  | next (m : MState)
  | done (m : MState) (terminal : Node)
  | fail (msg : String) (m : MState)
deriving Repr, DecidableEq

/-- The slice of the state `retrieval_node` reads. -/
def retrievalInputOf (s : GState) : RetrievalInput :=
  { query := s.query, rewritten_queries := s.rewritten_queries,
    selected_doc_ids := s.selected_doc_ids, web_mode := s.web_mode,
    query_type := s.query_type }

/-- One step of the compiled graph: execute the current node, merge its
update, follow its (conditional) edge.  Terminal nodes (`not_found`,
`error`, `output`, graph.py lines 25–47) apply their update and stop.
An edge value missing from the mapping dict, or an exception inside a
node, is a failure. -/
def step (env : Env) (m : MState) : StepRes :=
  match m.node with
  | .router =>
    let s2 := { m.st with
      route := some (router_node m.st.query m.st.selected_doc_ids m.st.web_mode) }
    match routerEdges (route_after_router s2) with
    | some n => .next { m with node := n, st := s2 }
    | none => .fail "graph: unknown edge target after router" { m with st := s2 }
  | .query_analyzer =>
    let s2 := query_analyzer_node env m.st
    match analyzerEdges (route_after_analyzer s2) with
    | some n => .next { m with node := n, st := s2 }
    | none => .fail "graph: unknown edge target after query_analyzer" { m with st := s2 }
  | .query_rewriter =>
    .next { m with node := .retrieval, st := query_rewriter_node env m.st }
  | .retrieval =>
    match retrieval_node env.retrieval (retrievalInputOf m.st) with
    | .ok r =>
      .next { m with
        node := .generator,
        st := { m.st with
                chunks := r.chunks, found := r.found,
                confident := some r.confident } }
    | .error e => .fail e m
  | .generator =>
    let p := generator_node env m.st
    let m2 : MState := { node := m.node, st := p.1, gen_calls := m.gen_calls + 1 }
    match generatorEdges (route_after_generator p.1) with
    | some n => .next { m2 with node := n }
    | none => .fail "graph: unknown edge target after generator" m2
  | .self_evaluator =>
    let s2 := self_evaluator_node env m.st
    match selfEvalEdges (route_after_self_eval s2) with
    | some n => .next { m with node := n, st := s2 }
    | none => .fail "graph: unknown edge target after self_evaluator" { m with st := s2 }
  | .not_found =>
    .done { m with st := { m.st with
      answer := some "No information found in the selected sources.",
      confident := some false, context_verdict := some "EMPTY",
      reasoning := some "",
      missing_info := some "All retrieval attempts returned no relevant results." } }
      .not_found
  | .error =>
    .done { m with st := { m.st with
      answer := some "No sources available. Upload documents or enable web mode.",
      confident := some false, context_verdict := some "EMPTY" } } .error
  | .output => .done m .output

/-- Result of running the graph to completion. -/
inductive RunRes
  | finished (m : MState) (terminal : Node)
  | failed (msg : String) (m : MState)
  | fuel
deriving Repr, DecidableEq

/-- Fueled execution of the compiled graph. -/
def run (env : Env) : Nat → MState → RunRes
  | 0, _ => .fuel
  | n + 1, m =>
    match step env m with
    | .next m2 => run env n m2
    | .done m2 t => .finished m2 t
    | .fail e m2 => .failed e m2

/-- The initial state `run_chat` passes to `graph.invoke`
(`services/chat_service.py` lines 61–71). -/
def initGState (query session_id : String) (selected_doc_ids : List String)
    (web_mode : Bool) : GState :=
  { query := query, session_id := session_id,
    selected_doc_ids := selected_doc_ids, web_mode := web_mode }

/-- Execution starts at the entry point `router`. -/
def initMState (query session_id : String) (sel : List String) (web : Bool) :
    MState :=
  { node := .router, st := initGState query session_id sel web, gen_calls := 0 }

/-! ## Soundness of the graph machine: invariant, measure, halting -/

/-- On the non-raising path `retrieval_node` always returns the empty
result: the only `.ok` constructor sits in the `all_chunks`-empty branch
(every nonempty gathering raises in the `rerank` unpacking, cf. C4). -/
theorem retrieval_node_ok (env : RetrievalEnv) (inp : RetrievalInput)
    (r : RetrievalOut) (h : retrieval_node env inp = .ok r) :
    r = { chunks := [], found := false, confident := false } := by
  simp only [retrieval_node] at h
  split at h
  · exact (Except.ok.inj h).symm
  · split at h <;> exact absurd h (by simp)

theorem routerEdges_some (x : String) (n : Node) (h : routerEdges x = some n) :
    n = .query_analyzer ∨ n = .generator ∨ n = .error := by
  unfold routerEdges at h
  split at h <;> simp_all

theorem generatorEdges_some (x : String) (n : Node) (h : generatorEdges x = some n) :
    (x = "self_evaluator" ∧ n = .self_evaluator) ∨
    (x = "query_rewriter" ∧ n = .query_rewriter) ∨
    (x = "not_found" ∧ n = .not_found) := by
  unfold generatorEdges at h
  split at h <;> simp_all

theorem selfEvalEdges_some (x : String) (n : Node) (h : selfEvalEdges x = some n) :
    (x = "output" ∧ n = .output) ∨ (x = "query_rewriter" ∧ n = .query_rewriter) := by
  unfold selfEvalEdges at h
  split at h <;> simp_all

/-- The generator routes back to the rewriter only below the retry bound. -/
theorem route_after_generator_rewriter (s : GState)
    (h : route_after_generator s = "query_rewriter") :
    s.rewrite_count < MAX_REWRITES := by
  unfold route_after_generator at h
  split_ifs at h <;> first | assumption | exact absurd h (by decide)

/-- The self-evaluator routes back to the rewriter only below the bound. -/
theorem route_after_self_eval_rewriter (s : GState)
    (h : route_after_self_eval s = "query_rewriter") :
    s.rewrite_count < MAX_REWRITES := by
  unfold route_after_self_eval at h
  split_ifs at h <;> first | assumption | exact absurd h (by decide)

theorem query_analyzer_node_frame (env : Env) (s : GState) :
    (query_analyzer_node env s).rewrite_count = s.rewrite_count ∧
    (query_analyzer_node env s).confident = s.confident ∧
    (query_analyzer_node env s).verdict = s.verdict := ⟨rfl, rfl, rfl⟩

theorem query_rewriter_node_frame (env : Env) (s : GState) :
    (query_rewriter_node env s).rewrite_count = s.rewrite_count + 1 ∧
    (query_rewriter_node env s).confident = s.confident ∧
    (query_rewriter_node env s).verdict = s.verdict := ⟨rfl, rfl, rfl⟩

theorem generator_node_frame (env : Env) (s : GState) :
    (generator_node env s).1.rewrite_count = s.rewrite_count ∧
    (generator_node env s).1.confident = s.confident ∧
    (generator_node env s).1.verdict = s.verdict ∧
    (generator_node env s).1.query_type = s.query_type := ⟨rfl, rfl, rfl, rfl⟩

theorem self_evaluator_node_count (env : Env) (s : GState) :
    (self_evaluator_node env s).rewrite_count = s.rewrite_count := rfl

/-- The self-evaluator writes `confident` and `verdict` coherently. -/
theorem self_evaluator_node_coherent (env : Env) (s : GState)
    (h : (self_evaluator_node env s).confident = some true) :
    (self_evaluator_node env s).verdict = some "GOOD" := by
  unfold self_evaluator_node at h ⊢
  simp only [Option.some.injEq] at h
  have hv := of_decide_eq_true h
  simp [hv]

/-- Rewrite count whose pending increment at the rewriter is already
counted (the rewriter increments immediately upon execution). -/
def vcount (m : MState) : Nat :=
  if m.node = .query_rewriter then m.st.rewrite_count + 1 else m.st.rewrite_count

def nodeRank : Node → Nat
  | .router => 12
  | .query_analyzer => 11
  | .query_rewriter => 10
  | .retrieval => 4
  | .generator => 3
  | .self_evaluator => 2
  | _ => 1

/-- Termination measure for the graph machine. -/
def measureOf (m : MState) : Nat := 13 * (2 - vcount m) + nodeRank m.node

/-- Inductive invariant of every reachable machine state. -/
def Inv (m : MState) : Prop :=
  m.st.rewrite_count ≤ 2 ∧
  ((m.node = .router ∨ m.node = .query_analyzer ∨ m.node = .query_rewriter) →
    m.st.rewrite_count ≤ 1) ∧
  ((m.node = .router ∨ m.node = .query_analyzer) → m.gen_calls = 0) ∧
  ((m.node = .retrieval ∨ m.node = .generator) → m.gen_calls ≤ m.st.rewrite_count) ∧
  m.gen_calls ≤ m.st.rewrite_count + 1 ∧
  (m.st.confident = some true → m.st.verdict = some "GOOD")

/-- What holds of any state the machine stops in (normally or by
failure). -/
def FinalOK (m : MState) : Prop :=
  m.st.rewrite_count ≤ 2 ∧ m.gen_calls ≤ 3 ∧
  (m.st.confident = some true → m.st.verdict = some "GOOD")

theorem Inv_init (query session_id : String) (sel : List String) (web : Bool) :
    Inv (initMState query session_id sel web) := by
  refine ⟨?_, ?_, ?_, ?_, ?_, ?_⟩ <;> simp [initMState, initGState]

/-- One step preserves the invariant and decreases the measure; stopped
states (terminal or failed) satisfy `FinalOK`. -/
theorem step_sound (env : Env) (m : MState) (hInv : Inv m) :
    (∀ m2, step env m = .next m2 → Inv m2 ∧ measureOf m2 < measureOf m) ∧
    (∀ m2 t, step env m = .done m2 t → FinalOK m2) ∧
    (∀ e m2, step env m = .fail e m2 → FinalOK m2) := by
  obtain ⟨node, st, gen⟩ := m
  obtain ⟨h1, h2, h3, h4, h5, h6⟩ := hInv
  have hc2 : st.rewrite_count ≤ 2 := h1
  have hg1 : gen ≤ st.rewrite_count + 1 := h5
  cases node with
  | router =>
    have hcle : st.rewrite_count ≤ 1 := h2 (Or.inl rfl)
    have hg0 : gen = 0 := h3 (Or.inl rfl)
    refine ⟨?_, ?_, ?_⟩
    · intro m2 hm2
      simp only [step] at hm2
      cases hre : routerEdges (route_after_router
          { st with route := some (router_node st.query st.selected_doc_ids st.web_mode) }) with
      | none => rw [hre] at hm2; exact absurd hm2 (by simp)
      | some n =>
        rw [hre] at hm2
        simp only [StepRes.next.injEq] at hm2
        subst hm2
        rcases routerEdges_some _ _ hre with hn | hn | hn <;> subst hn
        · refine ⟨⟨h1, fun _ => hcle, fun _ => hg0, ?_, h5, h6⟩, ?_⟩
          · intro _; show gen ≤ st.rewrite_count; omega
          · show 13 * (2 - st.rewrite_count) + 11 < 13 * (2 - st.rewrite_count) + 12
            omega
        · refine ⟨⟨h1, fun _ => hcle, fun _ => hg0, ?_, h5, h6⟩, ?_⟩
          · intro _; show gen ≤ st.rewrite_count; omega
          · show 13 * (2 - st.rewrite_count) + 3 < 13 * (2 - st.rewrite_count) + 12
            omega
        · refine ⟨⟨h1, fun _ => hcle, fun _ => hg0, ?_, h5, h6⟩, ?_⟩
          · intro _; show gen ≤ st.rewrite_count; omega
          · show 13 * (2 - st.rewrite_count) + 1 < 13 * (2 - st.rewrite_count) + 12
            omega
    · intro m2 t hm2
      simp only [step] at hm2
      cases hre : routerEdges (route_after_router
          { st with route := some (router_node st.query st.selected_doc_ids st.web_mode) }) with
      | none => rw [hre] at hm2; exact absurd hm2 (by simp)
      | some n => rw [hre] at hm2; exact absurd hm2 (by simp)
    · intro e m2 hm2
      simp only [step] at hm2
      cases hre : routerEdges (route_after_router
          { st with route := some (router_node st.query st.selected_doc_ids st.web_mode) }) with
      | none =>
        rw [hre] at hm2
        simp only [StepRes.fail.injEq] at hm2
        obtain ⟨_, hm2⟩ := hm2
        subst hm2
        exact ⟨h1, by show gen ≤ 3; omega, h6⟩
      | some n => rw [hre] at hm2; exact absurd hm2 (by simp)
  | query_analyzer =>
    have hcle : st.rewrite_count ≤ 1 := h2 (Or.inr (Or.inl rfl))
    have hg0 : gen = 0 := h3 (Or.inr rfl)
    refine ⟨?_, ?_, ?_⟩
    · intro m2 hm2
      simp only [step, route_after_analyzer, analyzerEdges] at hm2
      simp only [StepRes.next.injEq] at hm2
      subst hm2
      refine ⟨⟨h1, fun _ => hcle, ?_, ?_, ?_, h6⟩, ?_⟩
      · intro _; exact hg0
      · intro _; show gen ≤ st.rewrite_count; omega
      · show gen ≤ st.rewrite_count + 1; omega
      · show 13 * (2 - (st.rewrite_count + 1)) + 10 < 13 * (2 - st.rewrite_count) + 11
        omega
    · intro m2 t hm2
      simp [step, route_after_analyzer, analyzerEdges] at hm2
    · intro e m2 hm2
      simp [step, route_after_analyzer, analyzerEdges] at hm2
  | query_rewriter =>
    have hcle : st.rewrite_count ≤ 1 := h2 (Or.inr (Or.inr rfl))
    refine ⟨?_, ?_, ?_⟩
    · intro m2 hm2
      simp only [step] at hm2
      simp only [StepRes.next.injEq] at hm2
      subst hm2
      refine ⟨⟨?_, ?_, ?_, ?_, ?_, h6⟩, ?_⟩
      · show st.rewrite_count + 1 ≤ 2; omega
      · intro hx; rcases hx with hx | hx | hx <;> simp at hx
      · intro hx; rcases hx with hx | hx <;> simp at hx
      · intro _; show gen ≤ st.rewrite_count + 1; omega
      · show gen ≤ st.rewrite_count + 1 + 1; omega
      · show 13 * (2 - (st.rewrite_count + 1)) + 4
            < 13 * (2 - (st.rewrite_count + 1)) + 10
        omega
    · intro m2 t hm2; simp [step] at hm2
    · intro e m2 hm2; simp [step] at hm2
  | retrieval =>
    have hgr : gen ≤ st.rewrite_count := h4 (Or.inl rfl)
    refine ⟨?_, ?_, ?_⟩
    · intro m2 hm2
      simp only [step] at hm2
      cases hr : retrieval_node env.retrieval (retrievalInputOf st) with
      | ok r =>
        have hreq := retrieval_node_ok _ _ _ hr
        subst hreq
        rw [hr] at hm2
        simp only [StepRes.next.injEq] at hm2
        subst hm2
        refine ⟨⟨h1, ?_, ?_, ?_, h5, ?_⟩, ?_⟩
        · intro hx; rcases hx with hx | hx | hx <;> simp at hx
        · intro hx; rcases hx with hx | hx <;> simp at hx
        · intro _; exact hgr
        · intro hx; exact absurd hx (by simp)
        · show 13 * (2 - st.rewrite_count) + 3 < 13 * (2 - st.rewrite_count) + 4
          omega
      | error e => rw [hr] at hm2; exact absurd hm2 (by simp)
    · intro m2 t hm2
      simp only [step] at hm2
      cases hr : retrieval_node env.retrieval (retrievalInputOf st) with
      | ok r => rw [hr] at hm2; exact absurd hm2 (by simp)
      | error e => rw [hr] at hm2; exact absurd hm2 (by simp)
    · intro e m2 hm2
      simp only [step] at hm2
      cases hr : retrieval_node env.retrieval (retrievalInputOf st) with
      | ok r => rw [hr] at hm2; exact absurd hm2 (by simp)
      | error e2 =>
        rw [hr] at hm2
        simp only [StepRes.fail.injEq] at hm2
        obtain ⟨_, hm2⟩ := hm2
        subst hm2
        exact ⟨h1, by show gen ≤ 3; omega, h6⟩
  | generator =>
    have hgr : gen ≤ st.rewrite_count := h4 (Or.inr rfl)
    refine ⟨?_, ?_, ?_⟩
    · intro m2 hm2
      simp only [step] at hm2
      cases hge : generatorEdges (route_after_generator (generator_node env st).1) with
      | none => rw [hge] at hm2; exact absurd hm2 (by simp)
      | some n =>
        rw [hge] at hm2
        simp only [StepRes.next.injEq] at hm2
        subst hm2
        rcases generatorEdges_some _ _ hge with ⟨hx, hn⟩ | ⟨hx, hn⟩ | ⟨hx, hn⟩ <;> subst hn
        · refine ⟨⟨h1, ?_, ?_, ?_, ?_, h6⟩, ?_⟩
          · intro hy; rcases hy with hy | hy | hy <;> simp at hy
          · intro hy; rcases hy with hy | hy <;> simp at hy
          · intro hy; rcases hy with hy | hy <;> simp at hy
          · show gen + 1 ≤ st.rewrite_count + 1; omega
          · show 13 * (2 - st.rewrite_count) + 2 < 13 * (2 - st.rewrite_count) + 3
            omega
        · have hlt : st.rewrite_count < 2 :=
              route_after_generator_rewriter ((generator_node env st).1) hx
          refine ⟨⟨h1, ?_, ?_, ?_, ?_, h6⟩, ?_⟩
          · intro _; show st.rewrite_count ≤ 1; omega
          · intro hy; rcases hy with hy | hy <;> simp at hy
          · intro hy; rcases hy with hy | hy <;> simp at hy
          · show gen + 1 ≤ st.rewrite_count + 1; omega
          · show 13 * (2 - (st.rewrite_count + 1)) + 10 < 13 * (2 - st.rewrite_count) + 3
            omega
        · refine ⟨⟨h1, ?_, ?_, ?_, ?_, h6⟩, ?_⟩
          · intro hy; rcases hy with hy | hy | hy <;> simp at hy
          · intro hy; rcases hy with hy | hy <;> simp at hy
          · intro hy; rcases hy with hy | hy <;> simp at hy
          · show gen + 1 ≤ st.rewrite_count + 1; omega
          · show 13 * (2 - st.rewrite_count) + 1 < 13 * (2 - st.rewrite_count) + 3
            omega
    · intro m2 t hm2
      simp only [step] at hm2
      cases hge : generatorEdges (route_after_generator (generator_node env st).1) with
      | none => rw [hge] at hm2; exact absurd hm2 (by simp)
      | some n => rw [hge] at hm2; exact absurd hm2 (by simp)
    · intro e m2 hm2
      simp only [step] at hm2
      cases hge : generatorEdges (route_after_generator (generator_node env st).1) with
      | none =>
        rw [hge] at hm2
        simp only [StepRes.fail.injEq] at hm2
        obtain ⟨_, hm2⟩ := hm2
        subst hm2
        refine ⟨h1, ?_, h6⟩
        show gen + 1 ≤ 3
        omega
      | some n => rw [hge] at hm2; exact absurd hm2 (by simp)
  | self_evaluator =>
    refine ⟨?_, ?_, ?_⟩
    · intro m2 hm2
      simp only [step] at hm2
      cases hse : selfEvalEdges (route_after_self_eval (self_evaluator_node env st)) with
      | none => rw [hse] at hm2; exact absurd hm2 (by simp)
      | some n =>
        rw [hse] at hm2
        simp only [StepRes.next.injEq] at hm2
        subst hm2
        rcases selfEvalEdges_some _ _ hse with ⟨hx, hn⟩ | ⟨hx, hn⟩ <;> subst hn
        · refine ⟨⟨h1, ?_, ?_, ?_, h5, self_evaluator_node_coherent env st⟩, ?_⟩
          · intro hy; rcases hy with hy | hy | hy <;> simp at hy
          · intro hy; rcases hy with hy | hy <;> simp at hy
          · intro hy; rcases hy with hy | hy <;> simp at hy
          · show 13 * (2 - st.rewrite_count) + 1 < 13 * (2 - st.rewrite_count) + 2
            omega
        · have hlt : st.rewrite_count < 2 :=
              route_after_self_eval_rewriter (self_evaluator_node env st) hx
          refine ⟨⟨h1, ?_, ?_, ?_, h5, self_evaluator_node_coherent env st⟩, ?_⟩
          · intro _; show st.rewrite_count ≤ 1; omega
          · intro hy; rcases hy with hy | hy <;> simp at hy
          · intro hy; rcases hy with hy | hy <;> simp at hy
          · show 13 * (2 - (st.rewrite_count + 1)) + 10 < 13 * (2 - st.rewrite_count) + 2
            omega
    · intro m2 t hm2
      simp only [step] at hm2
      cases hse : selfEvalEdges (route_after_self_eval (self_evaluator_node env st)) with
      | none => rw [hse] at hm2; exact absurd hm2 (by simp)
      | some n => rw [hse] at hm2; exact absurd hm2 (by simp)
    · intro e m2 hm2
      simp only [step] at hm2
      cases hse : selfEvalEdges (route_after_self_eval (self_evaluator_node env st)) with
      | none =>
        rw [hse] at hm2
        simp only [StepRes.fail.injEq] at hm2
        obtain ⟨_, hm2⟩ := hm2
        subst hm2
        exact ⟨h1, by show gen ≤ 3; omega, self_evaluator_node_coherent env st⟩
      | some n => rw [hse] at hm2; exact absurd hm2 (by simp)
  | not_found =>
    refine ⟨?_, ?_, ?_⟩
    · intro m2 hm2; simp [step] at hm2
    · intro m2 t hm2
      simp only [step] at hm2
      simp only [StepRes.done.injEq] at hm2
      obtain ⟨hm2, _⟩ := hm2
      subst hm2
      refine ⟨h1, by show gen ≤ 3; omega, ?_⟩
      intro hx; exact absurd hx (by simp)
    · intro e m2 hm2; simp [step] at hm2
  | error =>
    refine ⟨?_, ?_, ?_⟩
    · intro m2 hm2; simp [step] at hm2
    · intro m2 t hm2
      simp only [step] at hm2
      simp only [StepRes.done.injEq] at hm2
      obtain ⟨hm2, _⟩ := hm2
      subst hm2
      refine ⟨h1, by show gen ≤ 3; omega, ?_⟩
      intro hx; exact absurd hx (by simp)
    · intro e m2 hm2; simp [step] at hm2
  | output =>
    refine ⟨?_, ?_, ?_⟩
    · intro m2 hm2; simp [step] at hm2
    · intro m2 t hm2
      simp only [step] at hm2
      simp only [StepRes.done.injEq] at hm2
      obtain ⟨hm2, _⟩ := hm2
      subst hm2
      exact ⟨h1, by show gen ≤ 3; omega, h6⟩
    · intro e m2 hm2; simp [step] at hm2

/-- Fueled execution never exhausts fuel exceeding the measure, and every
stopped state satisfies `FinalOK`. -/
theorem run_sound (env : Env) :
    ∀ (fuel : Nat) (m : MState), Inv m →
    (measureOf m < fuel → run env fuel m ≠ .fuel) ∧
    (∀ m2 t, run env fuel m = .finished m2 t → FinalOK m2) ∧
    (∀ e m2, run env fuel m = .failed e m2 → FinalOK m2) := by
  intro fuel
  induction fuel with
  | zero =>
    intro m hm
    refine ⟨fun h => absurd h (by omega), ?_, ?_⟩
    · intro m2 t hr; exact absurd hr (by simp [run])
    · intro e m2 hr; exact absurd hr (by simp [run])
  | succ n ih =>
    intro m hm
    obtain ⟨hnext, hdone, hfail⟩ := step_sound env m hm
    refine ⟨?_, ?_, ?_⟩
    · intro hlt
      show run env (n + 1) m ≠ .fuel
      simp only [run]
      cases hstep : step env m with
      | next m2 =>
        obtain ⟨hi2, hmeas⟩ := hnext m2 hstep
        exact (ih m2 hi2).1 (by omega)
      | done m2 t => simp
      | fail e m2 => simp
    · intro m2 t hr
      simp only [run] at hr
      cases hstep : step env m with
      | next m3 =>
        rw [hstep] at hr
        exact (ih m3 (hnext m3 hstep).1).2.1 m2 t hr
      | done m3 t2 =>
        rw [hstep] at hr
        simp only [RunRes.finished.injEq] at hr
        obtain ⟨hr1, _⟩ := hr
        subst hr1
        exact hdone m3 t2 hstep
      | fail e m3 => rw [hstep] at hr; exact absurd hr (by simp)
    · intro e m2 hr
      simp only [run] at hr
      cases hstep : step env m with
      | next m3 =>
        rw [hstep] at hr
        exact (ih m3 (hnext m3 hstep).1).2.2 e m2 hr
      | done m3 t2 => rw [hstep] at hr; exact absurd hr (by simp)
      | fail e2 m3 =>
        rw [hstep] at hr
        simp only [RunRes.failed.injEq] at hr
        obtain ⟨_, hr2⟩ := hr
        subst hr2
        exact hfail e2 m3 hstep

/-! ## The claims about the pipeline -/

/-- A concrete oracle environment for evaluation: every LLM parse fails
(exercising the fallback paths), the chat answer and the self-eval reply
are fixed strings, and the session stores are empty. -/
def env0 : Env :=
  { analyzerParse := fun _ => none,
    rewriterParse := fun _ _ _ => none,
    chatAnswer := fun _ => "hello there",
    ragParse := fun _ _ => none,
    ragRaw := fun _ _ => "raw answer",
    evalResponse := fun _ _ _ => "GOOD",
    retrieval := { sessionCount := 0, faissSearch := fun _ => [],
                   bm25Count := 0, bm25Search := fun _ => [],
                   library := none, predict := predictHalf } }

/-- Like `env0` but with one chunk (doc d1) in the session FAISS store. -/
def envRagCrash : Env := { env0 with retrieval := envC4 }

/-- C6: over every oracle environment and every initial pipeline state,
the graph machine halts within fuel 40 (no unbounded looping); whenever
it stops — normally or by exception — `rewrite_count ≤ MAX_REWRITES`
holds and the generator (the body of the retrieve→generate loop) was
executed at most MAX_REWRITES + 1 = 3 times; `query_rewriter_node`
increments `rewrite_count` on every invocation; and both
`route_after_generator` and `route_after_self_eval` return the rewriter
only while `rewrite_count < MAX_REWRITES`. -/
theorem C6_rewrite_loop_bounded (env : Env) (query session_id : String)
    (sel : List String) (web : Bool) :
    run env 40 (initMState query session_id sel web) ≠ .fuel ∧
    (∀ m t, run env 40 (initMState query session_id sel web) = .finished m t →
      m.st.rewrite_count ≤ MAX_REWRITES ∧ m.gen_calls ≤ MAX_REWRITES + 1) ∧
    (∀ e m, run env 40 (initMState query session_id sel web) = .failed e m →
      m.st.rewrite_count ≤ MAX_REWRITES ∧ m.gen_calls ≤ MAX_REWRITES + 1) ∧
    (∀ s, (query_rewriter_node env s).rewrite_count = s.rewrite_count + 1) ∧
    (∀ s, route_after_generator s = "query_rewriter" →
      s.rewrite_count < MAX_REWRITES) ∧
    (∀ s, route_after_self_eval s = "query_rewriter" →
      s.rewrite_count < MAX_REWRITES) := by
  have hinv := Inv_init query session_id sel web
  obtain ⟨hfuel, hfin, hfail⟩ := run_sound env 40 (initMState query session_id sel web) hinv
  refine ⟨?_, ?_, ?_, ?_, ?_, ?_⟩
  · apply hfuel
    show 13 * (2 - 0) + 12 < 40
    omega
  · intro m t h; obtain ⟨ha, hb, _⟩ := hfin m t h; exact ⟨ha, hb⟩
  · intro e m h; obtain ⟨ha, hb, _⟩ := hfail e m h; exact ⟨ha, hb⟩
  · intro s; rfl
  · exact route_after_generator_rewriter
  · exact route_after_self_eval_rewriter

/-- A state on which `route_after_generator` takes the retry edge. -/
def gapState : GState :=
  { initGState "q" "s1" [] false with context_verdict := some "GAP" }

/-- Witness for C6: concrete run (chat query, empty stores) that finishes
at `output` within the bounds, and a concrete state on which the
generator retry edge fires below the bound. -/
theorem C6_rewrite_loop_bounded_witness :
    run env0 40 (initMState "hi" "s1" [] false) ≠ .fuel ∧
    (∃ m, run env0 40 (initMState "hi" "s1" [] false) = .finished m .output ∧
      m.st.rewrite_count ≤ MAX_REWRITES ∧ m.gen_calls ≤ MAX_REWRITES + 1) ∧
    route_after_generator gapState = "query_rewriter" ∧
    gapState.rewrite_count < MAX_REWRITES := by
  refine ⟨(C6_rewrite_loop_bounded env0 "hi" "s1" [] false).1, ⟨_, rfl, ?_⟩, rfl, ?_⟩
  · exact (C6_rewrite_loop_bounded env0 "hi" "s1" [] false).2.1 _ _ rfl
  · exact (C6_rewrite_loop_bounded env0 "hi" "s1" [] false).2.2.2.2.1 gapState rfl

/-- C7: on every stopped terminal state of the graph (over any oracle
environment and any initial pipeline state), `confident = true` implies
`verdict = GOOD`.  In the code as written this holds because the only
completing writer of `confident = True` is the self-evaluator, which
writes `verdict = "GOOD"` alongside: the retrieval-threshold path raises
inside the `rerank` unpacking before it can return `confident = True`
(cf. C4), so every `.ok` retrieval carries `confident = false`, and the
generator's skip-self-eval "output" route is absent from its edge
mapping, so it fails rather than reaching output. -/
theorem C7_confident_implies_good (env : Env) (query session_id : String)
    (sel : List String) (web : Bool) (fuel : Nat) (m : MState) (t : Node)
    (h : run env fuel (initMState query session_id sel web) = .finished m t)
    (hc : m.st.confident = some true) : m.st.verdict = some "GOOD" :=
  ((run_sound env fuel _ (Inv_init query session_id sel web)).2.1 m t h).2.2 hc

/-- Witness for C7: the concrete chat run ends at `output` with
`confident = true`, and the theorem yields `verdict = GOOD` there. -/
theorem C7_confident_implies_good_witness :
    ∃ m, run env0 40 (initMState "hi" "s1" [] false) = .finished m .output ∧
      m.st.confident = some true ∧ m.st.verdict = some "GOOD" := by
  refine ⟨_, rfl, rfl, ?_⟩
  exact C7_confident_implies_good env0 "hi" "s1" [] false 40 _ .output rfl rfl

/-- C2: the claim that executing the compiled graph never raises fails on
the code: on an ordinary rag query (one selected document whose chunk is
in the session store), `retrieval_node` raises while tuple-unpacking the
bare list `rerank` returns, so execution ends in an exception instead of
a structured response.  (Independently, `graph.py` cannot even be
imported: it imports `route_after_analyzer`, which no source file
defines; the machine models that edge from the spec.) -/
theorem C2_pipeline_raises_on_rag :
    ∃ m, run envRagCrash 40 (initMState "What is the thrust?" "s1" ["d1"] false)
      = .failed "ValueError: not enough values to unpack" m := ⟨_, rfl⟩

/-- Initial state of the summarize scenario. -/
def sumState : GState := initGState "Please summarize this paper" "s1" ["d1"] false

/-- C3: the router does return "summarize" for a summarize-keyword query
with a selected document and web off — but the compiled graph adds no
summarizer node and has no "summarize" entry in the router's conditional
edge mapping (`graph.py` never imports `summarizer_node`), so execution
fails instead of reaching the Summarizer.  The orphaned `summarizer_node`
itself behaves as claimed: with loadable content for a selected document
it answers with the LLM summary, `sources = []`, `confident = true`. -/
theorem C3_summarize_route_unwired :
    router_node "Please summarize this paper" ["d1"] false = "summarize" ∧
    routerEdges "summarize" = none ∧
    (∃ m, run env0 40 (initMState "Please summarize this paper" "s1" ["d1"] false)
      = .failed "graph: unknown edge target after router" m) ∧
    (summarizer_node (some [{ chunkA with text := "Deep space probes." }])
      (fun _ => "A short summary.") sumState).answer = some "A short summary." ∧
    (summarizer_node (some [{ chunkA with text := "Deep space probes." }])
      (fun _ => "A short summary.") sumState).confident = some true ∧
    (summarizer_node (some [{ chunkA with text := "Deep space probes." }])
      (fun _ => "A short summary.") sumState).sources = [] := by
  refine ⟨rfl, rfl, ⟨_, rfl⟩, rfl, rfl, rfl⟩

theorem sessionRound_nil_nil (vw bw : ℚ) (acc : GatherAcc) :
    sessionRound vw bw [] [] acc = acc := rfl

theorem gatherOver_empty_stores (env : RetrievalEnv) (inp : RetrievalInput)
    (h1 : env.sessionCount = 0) (h2 : env.bm25Count = 0)
    (hweb : inp.web_mode = false) (qs : List String) :
    gatherOver env inp qs = {} := by
  unfold gatherOver
  have hround : ∀ (acc : GatherAcc) (q : String),
      retrievalRound env inp (1 - bm25WeightFor (inp.query_type.getD "simple"))
        (bm25WeightFor (inp.query_type.getD "simple")) acc q = acc := by
    intro acc q
    unfold retrievalRound
    rw [hweb, h1, h2]
    rfl
  induction qs with
  | nil => rfl
  | cons q qs ih => rw [List.foldl_cons, hround]; exact ih

theorem filterSelected_nil (sel : List String) : filterSelected sel [] = [] := by
  unfold filterSelected
  split <;> rfl

/-- C9: with route = "rag" and found = false, the generator returns the
canned no-information response (context_verdict = EMPTY, copied into
last_verdict) with the made-an-LLM-call flag false; and retrieval over
empty dense and sparse session indexes returns found = false with no
chunks and no exception. -/
theorem C9_empty_retrieval_short_circuit (env : Env) (s : GState)
    (hroute : s.route = some "rag") (hfound : s.found = false)
    (renv : RetrievalEnv) (inp : RetrievalInput)
    (h1 : renv.sessionCount = 0) (h2 : renv.bm25Count = 0)
    (hweb : inp.web_mode = false) :
    generator_node env s = ({ s with
      context_verdict := some "EMPTY", reasoning := some "",
      answer := some "No information found in the selected sources.",
      sources := [], missing_info := some "No relevant chunks retrieved.",
      last_verdict := "EMPTY" }, false) ∧
    retrieval_node renv inp
      = .ok { chunks := [], found := false, confident := false } := by
  constructor
  · unfold generator_node generatorPayload
    rw [hroute, hfound]
    simp
  · have hg : gatherChunks renv inp = {} :=
      gatherOver_empty_stores renv inp h1 h2 hweb (queriesOf inp)
    unfold retrieval_node
    rw [hg, filterSelected_nil]
    rfl

/-- A rag-route state with nothing found. -/
def ragEmptyState : GState :=
  { initGState "What is X?" "s1" ["d1"] false with route := some "rag" }

/-- Retrieval input over empty stores. -/
def inpC9 : RetrievalInput :=
  { query := "What is X?", rewritten_queries := none,
    selected_doc_ids := ["d1"], web_mode := false, query_type := none }

/-- Witness for C9 at a concrete state and the empty-store environment. -/
theorem C9_empty_retrieval_short_circuit_witness :
    generator_node env0 ragEmptyState = ({ ragEmptyState with
      context_verdict := some "EMPTY", reasoning := some "",
      answer := some "No information found in the selected sources.",
      sources := [], missing_info := some "No relevant chunks retrieved.",
      last_verdict := "EMPTY" }, false) ∧
    retrieval_node env0.retrieval inpC9
      = .ok { chunks := [], found := false, confident := false } :=
  C9_empty_retrieval_short_circuit env0 ragEmptyState rfl rfl
    env0.retrieval inpC9 rfl rfl rfl

end L88
